import Mathlib

set_option maxHeartbeats 1000000

/-
  Verification development for a YouTube comment sentiment-analysis app
  (single source file `app.py`).

  The embedding is shallow: Python strings are Lean `String`/`List Char`,
  Python lists are Lean `List`, the YouTube comment transport is a list of
  page responses, the sentiment inference engine is an oracle
  `String → String` returning a label, and the process-global `report_data`
  dict is an `Option AnalysisReport` slot.  All definitions are executable
  and structurally recursive (page-fetching and string-scanning loops use an
  explicit fuel argument equal to the input length, which is always
  sufficient, so the fuel-exhaustion branches are unreachable).
-/

/- ===================== Python string primitives ===================== -/

/-- Python `sep in s` (substring containment), over character lists.
Matches Python semantics including `"" in s = True`. -/
def pyContains (sep : List Char) : List Char → Bool
  | [] => sep.isPrefixOf []
  | c :: rest => sep.isPrefixOf (c :: rest) || pyContains sep rest

/-- Python `s.split(sep)` for a non-empty separator `s0 :: srest`:
scan left to right, cut at each non-overlapping occurrence of the
separator.  `fuel` bounds the recursion; `fuel = length of the list`
always suffices (each step consumes at least one character and one fuel),
so the `0, l` branch is unreachable from `pySplit`. -/
def pySplitF (s0 : Char) (srest : List Char) : Nat → List Char → List (List Char)
  | _, [] => [[]]
  | 0, l => [l]
  | fuel+1, c :: rest =>
    if (s0 :: srest).isPrefixOf (c :: rest) then
      [] :: pySplitF s0 srest fuel (rest.drop srest.length)
    else
      match pySplitF s0 srest fuel rest with
      | [] => [[c]]
      | h :: t => (c :: h) :: t

/-- Python `s.split(sep)`.  An empty separator is a `ValueError` in Python;
it never occurs in the program, so it is mapped to `[l]`. -/
def pySplit (sep : List Char) (l : List Char) : List (List Char) :=
  match sep with
  | [] => [l]
  | s0 :: srest => pySplitF s0 srest l.length l

/-- The characters Python `str.strip()` removes (the ASCII whitespace set;
the source only ever meets ASCII-ish comment text). -/
def pyIsSpace (c : Char) : Bool :=
  c = ' ' || c = '\t' || c = '\n' || c = '\r' || c = '\x0b' || c = '\x0c'

/-- Python `s.strip()`. -/
def pyStrip (s : String) : String :=
  ⟨((s.data.dropWhile pyIsSpace).reverse.dropWhile pyIsSpace).reverse⟩

/-- Python `s.upper()` (ASCII uppercasing, which is all the labels use). -/
def pyUpper (s : String) : String := ⟨s.data.map Char.toUpper⟩

/-- Python slicing `s[:256]` (character based). -/
def pySlice256 (s : String) : String := ⟨s.data.take 256⟩

/- ===================== extract_video_id (app.py 41-48) ===================== -/

/-- `extract_video_id` from app.py:

    if "v=" in link:       return link.split("v=")[1].split("&")[0]
    elif "youtu.be/" in link: return link.split("youtu.be/")[1].split("?")[0]
    elif "shorts/" in link:   return link.split("shorts/")[1].split("?")[0]
    return None
-/
def extract_video_id (link : String) : Option String :=
  let l := link.data
  if pyContains "v=".data l then
    some ⟨(pySplit "&".data ((pySplit "v=".data l).getD 1 [])).getD 0 []⟩
  else if pyContains "youtu.be/".data l then
    some ⟨(pySplit "?".data ((pySplit "youtu.be/".data l).getD 1 [])).getD 0 []⟩
  else if pyContains "shorts/".data l then
    some ⟨(pySplit "?".data ((pySplit "shorts/".data l).getD 1 [])).getD 0 []⟩
  else none

/-- Longest prefix containing no occurrence of any of the stop substrings
("take characters up to the next occurrence of a stop"). -/
def takeUntilSubs (stops : List (List Char)) : List Char → List Char
  | [] => []
  | c :: rest =>
    if stops.any (fun s => s.isPrefixOf (c :: rest)) then []
    else c :: takeUntilSubs stops rest

/-- The characters after the first occurrence of `sep` (`[]` if absent). -/
def afterFirstSub (sep : List Char) : List Char → List Char
  | [] => []
  | c :: rest =>
    if sep.isPrefixOf (c :: rest) then (c :: rest).drop sep.length
    else afterFirstSub sep rest

/-- The identifier extraction as the spec literally words it (used to refute
the original claim C7): for the first matching shape, "the substring after
the marker up to the next delimiter" — i.e. everything after the first
occurrence of the marker, cut only at the delimiter. -/
def extract_claimed (link : String) : Option String :=
  let l := link.data
  if pyContains "v=".data l then
    some ⟨takeUntilSubs ["&".data] (afterFirstSub "v=".data l)⟩
  else if pyContains "youtu.be/".data l then
    some ⟨takeUntilSubs ["?".data] (afterFirstSub "youtu.be/".data l)⟩
  else if pyContains "shorts/".data l then
    some ⟨takeUntilSubs ["?".data] (afterFirstSub "shorts/".data l)⟩
  else none

/-- The amended description of the extraction: the substring after the first
occurrence of the marker, cut at the next occurrence of the marker itself or
of the delimiter, whichever comes first (this is what `split(m)[1].split(d)[0]`
computes). -/
def extract_spec (link : String) : Option String :=
  let l := link.data
  if pyContains "v=".data l then
    some ⟨takeUntilSubs ["v=".data, "&".data] (afterFirstSub "v=".data l)⟩
  else if pyContains "youtu.be/".data l then
    some ⟨takeUntilSubs ["youtu.be/".data, "?".data] (afterFirstSub "youtu.be/".data l)⟩
  else if pyContains "shorts/".data l then
    some ⟨takeUntilSubs ["shorts/".data, "?".data] (afterFirstSub "shorts/".data l)⟩
  else none

/-- True when the link contains none of the three URL-shape markers. -/
def noMarkers (link : String) : Bool :=
  !(pyContains "v=".data link.data || pyContains "youtu.be/".data link.data ||
    pyContains "shorts/".data link.data)

/- ===================== analyze_sentiment (app.py 123-137) ===================== -/

/-- Scanning helper for `re.sub(r"<.*?>", "", comment)`: after an opening
`<`, the non-greedy pattern matches up to the first following `>`, with `.`
not matching a newline.  Returns the characters after that `>`, or `none`
if a newline or the end of the string comes first (no match at this `<`). -/
def findTagClose : List Char → Option (List Char)
  | [] => none
  | c :: rest =>
    if c = '>' then some rest
    else if c = '\n' then none
    else findTagClose rest

/-- `re.sub(r"<.*?>", "", comment)`: leftmost-first non-overlapping removal
of `<...>` runs.  `fuel = length of the list` always suffices (each step
consumes at least one character), so the `0, l` branch is unreachable. -/
def stripTagsF : Nat → List Char → List Char
  | _, [] => []
  | 0, l => l
  | fuel+1, c :: rest =>
    if c = '<' then
      match findTagClose rest with
      | some rest2 => stripTagsF fuel rest2
      | none => c :: stripTagsF fuel rest
    else c :: stripTagsF fuel rest

/-- The tag-stripping step of `analyze_sentiment`. -/
def stripTags (s : String) : String := ⟨stripTagsF s.data.length s.data⟩

/-- `analyze_sentiment` from app.py, with the external inference engine
(`sentiment_pipeline`) passed as an oracle `infer` returning the label
string.  The second component instruments the call: it records the text
inference was invoked on (`none` when inference was not invoked), which the
source's control flow determines but does not return.

    comment = re.sub(r"<.*?>", "", comment)
    if not comment.strip(): return "Neutral"
    result = sentiment_pipeline(comment[:256])[0]
    label = result["label"].upper()
    if "NEGATIVE" in label: return "Negative"
    elif "NEUTRAL" in label: return "Neutral"
    else: return "Positive"
-/
def analyze_sentiment (infer : String → String) (comment : String) : String × Option String :=
  let c := stripTags comment
  if pyStrip c = "" then ("Neutral", none)
  else
    let t := pySlice256 c
    let label := pyUpper (infer t)
    if pyContains "NEGATIVE".data label.data then ("Negative", some t)
    else if pyContains "NEUTRAL".data label.data then ("Neutral", some t)
    else ("Positive", some t)

/-- Case-insensitive substring containment, as the spec words the label
normalization ("any label containing NEGATIVE, case-insensitive"). -/
def containsInsensitive (needle hay : String) : Bool :=
  pyContains (pyUpper needle).data (pyUpper hay).data

/-- The spec's label-priority mapping: NEGATIVE beats NEUTRAL beats the
Positive default. -/
def sentimentOfLabel (label : String) : String :=
  if containsInsensitive "NEGATIVE" label then "Negative"
  else if containsInsensitive "NEUTRAL" label then "Neutral"
  else "Positive"

/- ===================== get_comments (app.py 82-117) ===================== -/

/-- One raw comment item in a `commentThreads().list` response:
`snippet["textDisplay"]` and `snippet.get("likeCount", 0)` (the like count
may be absent, hence `Option`). -/
structure RawComment where
  textDisplay : String
  likeCount : Option Nat
deriving DecidableEq, Repr

/-- One successful page response: its items and whether a
`nextPageToken` is present. -/
structure PageOk where
  items : List RawComment
  nextPageToken : Bool
deriving DecidableEq, Repr

/-- What one `request.execute()` call yields: a page, or an `HttpError`. -/
inductive PageResp where
  | ok : PageOk → PageResp
  | fault : PageResp
deriving DecidableEq, Repr

/-- Conversion of a raw item to the collected pair
`(comment_text, like_count)` with the like count defaulted to 0. -/
def convItem (it : RawComment) : String × Nat := (it.textDisplay, it.likeCount.getD 0)

/-- The cap on collected comments (`MAX_COMMENTS` in app.py). -/
def MAX_COMMENTS : Nat := 20

/-- The inner `for item in response.get("items", [])` loop: append each
converted item, returning `(comments, true)` the moment
`len(comments) >= MAX_COMMENTS` holds after an append (mid-page
truncation), else `(all appended, false)`. -/
def addItems : List (String × Nat) → List RawComment → List (String × Nat) × Bool
  | comments, [] => (comments, false)
  | comments, it :: rest =>
    let c2 := comments ++ [convItem it]
    if MAX_COMMENTS ≤ c2.length then (c2, true) else addItems c2 rest

/-- The `while True` pagination loop of `get_comments`.  The transport is a
list of page responses, consumed one per request; the second component
counts the `request.execute()` calls made.  A `fault` models the
`except HttpError: return []` handler: the whole function returns `[]`,
discarding everything gathered.  An exhausted response list means the
transport would yield nothing further and the loop is never reached again
in the runs the theorems quantify over. -/
def get_comments_go : List PageResp → List (String × Nat) → List (String × Nat) × Nat
  | [], comments => (comments, 0)
  | PageResp.fault :: _, _ => ([], 1)
  | PageResp.ok pg :: rest, comments =>
    let r := addItems comments pg.items
    if r.2 then (r.1, 1)
    else if pg.nextPageToken then
      let s := get_comments_go rest r.1
      (s.1, s.2 + 1)
    else (r.1, 1)

/-- `get_comments` from app.py, as a function of the page responses the
transport yields. -/
def get_comments (pages : List PageResp) : List (String × Nat) :=
  (get_comments_go pages []).1

/-- Number of page requests `get_comments` performs. -/
def get_comments_requests (pages : List PageResp) : Nat :=
  (get_comments_go pages []).2

/-- The items of a page response (a fault carries none). -/
def pageItems : PageResp → List RawComment
  | PageResp.ok pg => pg.items
  | PageResp.fault => []

/-- All comments the given pages hold, in page order, converted. -/
def flattenPages (pages : List PageResp) : List (String × Nat) :=
  ((pages.map pageItems).flatten).map convItem

/-- A page response sequence is exactly what the transport yields to the
loop absent the cap: no faults, every page but the last carries a
next-page token, and the last does not. -/
def chainedOk : List PageResp → Bool
  | [] => true
  | PageResp.fault :: _ => false
  | PageResp.ok pg :: rest =>
    if rest.isEmpty then !pg.nextPageToken
    else pg.nextPageToken && chainedOk rest

/-- A page that is successfully fetched and carries a next-page token. -/
def pageOkTok : PageResp → Bool
  | PageResp.ok pg => pg.nextPageToken
  | PageResp.fault => false

/- ===================== aggregation loop in home (app.py 174-188) ===================== -/

/-- The mutable locals of the aggregation loop in `home`. -/
structure Agg where
  positive : Nat
  negative : Nat
  neutral : Nat
  positive_comments : List String
  negative_comments : List String
  neutral_comments : List String
  all_text : String
deriving DecidableEq, Repr

/-- The loop locals as initialised at the top of `home`. -/
def initAgg : Agg := ⟨0, 0, 0, [], [], [], ""⟩

/-- One iteration of `for comment, like_count in comments_data` in `home`:
classify, extend `all_text`, and bump exactly one counter/bucket
(`if/elif/else` on the label). -/
def aggStep (classify : String → String) (st : Agg) (cd : String × Nat) : Agg :=
  let sentiment := classify cd.1
  let st1 := { st with all_text := st.all_text ++ " " ++ cd.1 }
  if sentiment == "Positive" then
    { st1 with positive := st1.positive + 1,
               positive_comments := st1.positive_comments ++ [cd.1] }
  else if sentiment == "Negative" then
    { st1 with negative := st1.negative + 1,
               negative_comments := st1.negative_comments ++ [cd.1] }
  else
    { st1 with neutral := st1.neutral + 1,
               neutral_comments := st1.neutral_comments ++ [cd.1] }

/-- The whole aggregation loop of `home`, from the initial locals. -/
def aggregate (classify : String → String) (data : List (String × Nat)) : Agg :=
  data.foldl (aggStep classify) initAgg

/- ===================== top-liked selection (app.py 190-194) ===================== -/

/-- Stable descending insertion by key: the new element goes in front of
the first strictly-smaller-keyed element, after all elements with a
greater-or-equal key.  Inserting an original-earlier element into the
sorted original-later suffix like this reproduces the output of Python's
stable `sorted(..., reverse=True)`. -/
def insertDesc {α : Type} (key : α → Nat) (c : α) : List α → List α
  | [] => [c]
  | d :: ds => if key d ≤ key c then c :: d :: ds else d :: insertDesc key c ds

/-- Python `sorted(l, key=key, reverse=True)`: the stable descending sort
by `key` (all stable sorts agree, so insertion sort is a faithful model of
Timsort here). -/
def pySortDescBy {α : Type} (key : α → Nat) : List α → List α
  | [] => []
  | c :: rest => insertDesc key c (pySortDescBy key rest)

/-- `sorted(comments_data, key=lambda x: x[1], reverse=True)[:5]` in `home`. -/
def top_liked_comments (data : List (String × Nat)) : List (String × Nat) :=
  (pySortDescBy (fun cd => cd.2) data).take 5

/-- Pair each element with its position (for stating sort stability). -/
def withIdxFrom {α : Type} (i : Nat) : List α → List (Nat × α)
  | [] => []
  | a :: l => (i, a) :: withIdxFrom (i + 1) l

/- ===================== report store and home route ===================== -/

/-- `get_video_stats` response payload (title plus the three counts). -/
structure VideoStats where
  title : String
  views : Nat
  likes : Nat
  comments_count : Nat
deriving DecidableEq, Repr

/-- The `report_data` payload written at the end of a successful analysis
(app.py 213-219).  The word-cloud PNG blob is modelled by the text the
rasteriser was invoked on (the rasteriser is an external capability and a
fixed function of that text). -/
structure AnalysisReport where
  video_stats : VideoStats
  positive : Nat
  negative : Nat
  neutral : Nat
  wordcloud_image : String
deriving DecidableEq, Repr

/-- `report_data = {...}` — an unconditional whole-slot replacement of the
process-global store. -/
def writeReport (a : AnalysisReport) (_store : Option AnalysisReport) : Option AnalysisReport :=
  some a

/-- What `/download_report` yields: either the "No report available."
answer or a document built from the stored analysis. -/
inductive ReportResult where
  | noReport : ReportResult
  | report : AnalysisReport → ReportResult
deriving DecidableEq, Repr

/-- `download_report` (app.py 239-288) up to the read of the store:
`if not report_data: return "No report available."`, else the document is
compiled from the stored analysis. -/
def download_report (store : Option AnalysisReport) : ReportResult :=
  match store with
  | none => ReportResult.noReport
  | some a => ReportResult.report a

/-- The template variables `home` renders `index.html` with. -/
structure HomeRender where
  error_message : String
  positive : Nat
  negative : Nat
  neutral : Nat
  positive_comments : List String
  negative_comments : List String
  neutral_comments : List String
  top_liked_comments : List (String × Nat)
  video_stats : Option VideoStats
deriving DecidableEq, Repr

/-- The render with all locals still at their initial values. -/
def initRender : HomeRender := ⟨"", 0, 0, 0, [], [], [], [], none⟩

/-- How a POST to `home` ends: an uncaught Python exception (`crashed`),
the early `return render_template("index.html", error_message=...)` after
a failed metadata lookup (`errorOnly`), or the final render. -/
inductive HomeOutcome where
  | crashed : HomeOutcome
  | errorOnly : String → HomeOutcome
  | rendered : HomeRender → HomeOutcome
deriving DecidableEq, Repr

/-- The environment a POST to `home` runs against: the form's `link` field
(`none` when absent, in which case `request.form.get` yields Python
`None`), the `get_video_stats` result (`none` covers both an empty
`items` response and an `HttpError`, which the source maps to `None`
alike), the comment pages the transport yields, and the inference
oracle. -/
structure Ctx where
  form_link : Option String
  stats : Option VideoStats
  pages : List PageResp
  infer : String → String

/-- The observable effects of one POST to `home`: the store afterwards, the
outcome, and instrumentation of the external calls — whether
`get_video_stats` was invoked, how many comment-page requests were made,
and the text the word-cloud rasteriser was invoked on (`none` when it was
not invoked). -/
structure HomeResult where
  store : Option AnalysisReport
  outcome : HomeOutcome
  metadata_called : Bool
  comment_requests : Nat
  wordcloud_input : Option String

/-- Python truthiness of the `video_id` local at `if not video_id:`
(app.py 161): falsy when the extraction returned None or the empty
string (an empty `str` is falsy in Python). -/
def pyFalsyId : Option String → Bool
  | none => true
  | some s => s == ""

/-- The POST branch of `home` (app.py 156-233).  `extract_video_id(None)`
raises `TypeError` (`"v=" in None` is not a containment test Python
accepts), modelled by `crashed`.  The `if not video_id:` guard treats
both a None and an empty-string extraction result as an invalid link.
On the success path the analysis dict is built in one expression and
assigned to the global store in one assignment. -/
def home_post (ctx : Ctx) (store : Option AnalysisReport) : HomeResult :=
  match ctx.form_link with
  | none =>
    { store := store, outcome := HomeOutcome.crashed,
      metadata_called := false, comment_requests := 0, wordcloud_input := none }
  | some link =>
    if pyFalsyId (extract_video_id link) then
      { store := store,
        outcome := HomeOutcome.rendered { initRender with error_message := "Invalid YouTube Link!" },
        metadata_called := false, comment_requests := 0, wordcloud_input := none }
    else
      match ctx.stats with
      | none =>
        { store := store, outcome := HomeOutcome.errorOnly "Unable to fetch video details.",
          metadata_called := true, comment_requests := 0, wordcloud_input := none }
      | some vs =>
        let comments_data := get_comments ctx.pages
        if comments_data.isEmpty then
          { store := store,
            outcome := HomeOutcome.rendered { initRender with video_stats := some vs },
            metadata_called := true, comment_requests := get_comments_requests ctx.pages,
            wordcloud_input := none }
        else
          let agg := aggregate (fun c => (analyze_sentiment ctx.infer c).1) comments_data
          let top := top_liked_comments comments_data
          let all_text := if pyStrip agg.all_text = "" then "No comments available" else agg.all_text
          let analysis : AnalysisReport :=
            { video_stats := vs, positive := agg.positive, negative := agg.negative,
              neutral := agg.neutral, wordcloud_image := all_text }
          { store := writeReport analysis store,
            outcome := HomeOutcome.rendered
              { error_message := "", positive := agg.positive, negative := agg.negative,
                neutral := agg.neutral, positive_comments := agg.positive_comments,
                negative_comments := agg.negative_comments,
                neutral_comments := agg.neutral_comments,
                top_liked_comments := top, video_stats := some vs },
            metadata_called := true, comment_requests := get_comments_requests ctx.pages,
            wordcloud_input := some all_text }

/-- Projection of the rendered top-liked list out of an outcome (for
stating that sentiment labels have no influence on it). -/
def outcomeTop : HomeOutcome → Option (List (String × Nat))
  | HomeOutcome.rendered r => some r.top_liked_comments
  | _ => none

/- ===================== lemmas: the collection loop ===================== -/

theorem addItems_small (items : List RawComment) :
    ∀ comments : List (String × Nat),
    comments.length + items.length < MAX_COMMENTS →
    addItems comments items = (comments ++ items.map convItem, false) := by
  induction items with
  | nil => intro comments _; simp [addItems]
  | cons it rest ih =>
    intro comments h
    simp only [addItems]
    rw [if_neg (by simp at h ⊢; omega)]
    rw [ih (comments ++ [convItem it]) (by simp at h ⊢; omega)]
    simp

theorem addItems_cap (items : List RawComment) :
    ∀ comments : List (String × Nat),
    comments.length < MAX_COMMENTS →
    MAX_COMMENTS ≤ comments.length + items.length →
    addItems comments items =
      (comments ++ (items.take (MAX_COMMENTS - comments.length)).map convItem, true) := by
  induction items with
  | nil => intro comments h1 h2; simp at h2; omega
  | cons it rest ih =>
    intro comments h1 h2
    simp only [addItems]
    by_cases hc : MAX_COMMENTS ≤ comments.length + 1
    · rw [if_pos (by simp; omega)]
      have h20 : MAX_COMMENTS - comments.length = 1 := by omega
      rw [h20]
      simp
    · rw [if_neg (by simp; omega)]
      rw [ih (comments ++ [convItem it]) (by simp; omega) (by simp at h2 ⊢; omega)]
      have h20 : MAX_COMMENTS - comments.length = (MAX_COMMENTS - (comments.length + 1)) + 1 := by
        omega
      rw [h20, List.take_succ_cons]
      simp

theorem go_length : ∀ (pages : List PageResp) (comments : List (String × Nat)),
    comments.length < MAX_COMMENTS →
    (get_comments_go pages comments).1.length ≤ MAX_COMMENTS := by
  intro pages
  induction pages with
  | nil => intro comments h; simpa [get_comments_go] using Nat.le_of_lt h
  | cons p rest ih =>
    intro comments h
    cases p with
    | fault => simp [get_comments_go]
    | ok pg =>
      simp only [get_comments_go]
      by_cases hcap : MAX_COMMENTS ≤ comments.length + pg.items.length
      · rw [addItems_cap pg.items comments h hcap]
        simp
        omega
      · rw [addItems_small pg.items comments (Nat.lt_of_not_le hcap)]
        simp only [Bool.false_eq_true, if_false]
        by_cases ht : pg.nextPageToken
        · simp only [ht, if_true]
          exact ih _ (by simp; omega)
        · simp only [ht, Bool.false_eq_true, if_false]
          simp
          omega

theorem go_chained : ∀ (pages : List PageResp) (comments : List (String × Nat)),
    chainedOk pages = true →
    comments.length + (flattenPages pages).length < MAX_COMMENTS →
    (get_comments_go pages comments).1 = comments ++ flattenPages pages := by
  intro pages
  induction pages with
  | nil => intro comments _ _; simp [get_comments_go, flattenPages]
  | cons p rest ih =>
    intro comments hch htot
    cases p with
    | fault => simp [chainedOk] at hch
    | ok pg =>
      have hflat : flattenPages (PageResp.ok pg :: rest)
          = pg.items.map convItem ++ flattenPages rest := by
        simp [flattenPages, pageItems]
      rw [hflat] at htot
      simp only [get_comments_go]
      rw [addItems_small pg.items comments (by simp at htot ⊢; omega)]
      simp only [Bool.false_eq_true, if_false]
      cases rest with
      | nil =>
        have htok : pg.nextPageToken = false := by
          simpa [chainedOk] using hch
        rw [htok]
        simp [hflat, flattenPages, pageItems]
      | cons q qs =>
        have hch2 : pg.nextPageToken = true ∧ chainedOk (q :: qs) = true := by
          simpa [chainedOk] using hch
        rw [hch2.1]
        simp only [if_true]
        rw [ih (comments ++ pg.items.map convItem) hch2.2 (by simp at htot ⊢; omega)]
        simp [hflat]

theorem go_cap : ∀ (front : List PageResp),
    (∀ p ∈ front, pageOkTok p = true) →
    ∀ (lastPg : PageOk) (rest : List PageResp) (comments : List (String × Nat)),
    comments.length < MAX_COMMENTS →
    comments.length + (flattenPages front).length < MAX_COMMENTS →
    MAX_COMMENTS ≤ comments.length + (flattenPages front).length + lastPg.items.length →
    get_comments_go (front ++ PageResp.ok lastPg :: rest) comments =
      ((comments ++ flattenPages front) ++
        (lastPg.items.take (MAX_COMMENTS - (comments ++ flattenPages front).length)).map convItem,
       front.length + 1) := by
  intro front
  induction front with
  | nil =>
    intro _ lastPg rest comments h1 _ hcap
    simp only [List.nil_append, get_comments_go]
    rw [addItems_cap lastPg.items comments h1 (by simp [flattenPages] at hcap; omega)]
    simp [flattenPages]
  | cons p front ih =>
    intro hok lastPg rest comments h1 h2 hcap
    cases p with
    | fault => exact absurd (hok PageResp.fault (by simp)) (by simp [pageOkTok])
    | ok pg =>
      have htok : pg.nextPageToken = true := hok (PageResp.ok pg) (by simp)
      have hflat : flattenPages (PageResp.ok pg :: front)
          = pg.items.map convItem ++ flattenPages front := by
        simp [flattenPages, pageItems]
      rw [hflat] at h2 hcap
      simp only [List.length_append, List.length_map] at h2 hcap
      simp only [List.cons_append, get_comments_go]
      rw [addItems_small pg.items comments (by omega)]
      simp only [Bool.false_eq_true, if_false, htok, if_true]
      simp only [List.append_eq]
      rw [ih (fun q hq => hok q (by simp [hq])) lastPg rest (comments ++ pg.items.map convItem)
        (by simp; omega) (by simp; omega) (by simp; omega)]
      simp [hflat, List.append_assoc]

theorem go_fault : ∀ (front : List PageResp),
    (∀ p ∈ front, pageOkTok p = true) →
    ∀ (rest : List PageResp) (comments : List (String × Nat)),
    comments.length < MAX_COMMENTS →
    comments.length + (flattenPages front).length < MAX_COMMENTS →
    get_comments_go (front ++ PageResp.fault :: rest) comments = ([], front.length + 1) := by
  intro front
  induction front with
  | nil => intro _ rest comments _ _; simp [get_comments_go]
  | cons p front ih =>
    intro hok rest comments h1 h2
    cases p with
    | fault => exact absurd (hok PageResp.fault (by simp)) (by simp [pageOkTok])
    | ok pg =>
      have htok : pg.nextPageToken = true := hok (PageResp.ok pg) (by simp)
      have hflat : flattenPages (PageResp.ok pg :: front)
          = pg.items.map convItem ++ flattenPages front := by
        simp [flattenPages, pageItems]
      rw [hflat] at h2
      simp only [List.length_append, List.length_map] at h2
      simp only [List.cons_append, get_comments_go]
      rw [addItems_small pg.items comments (by omega)]
      simp only [Bool.false_eq_true, if_false, htok, if_true]
      simp only [List.append_eq]
      rw [ih (fun q hq => hok q (by simp [hq])) rest (comments ++ pg.items.map convItem)
        (by simp; omega) (by simp; omega)]
      simp

/- ===================== lemmas: Python split and extraction ===================== -/

theorem pySplitF_irrel (s0 : Char) (srest : List Char) :
    ∀ (f1 : Nat) (l : List Char) (f2 : Nat), l.length ≤ f1 → l.length ≤ f2 →
    pySplitF s0 srest f1 l = pySplitF s0 srest f2 l := by
  intro f1
  induction f1 with
  | zero =>
    intro l f2 h1 _
    have hl : l = [] := List.eq_nil_of_length_eq_zero (Nat.le_zero.mp h1)
    subst hl
    cases f2 <;> simp [pySplitF]
  | succ f1 ih =>
    intro l f2 h1 h2
    cases l with
    | nil => cases f2 <;> simp [pySplitF]
    | cons c rest =>
      cases f2 with
      | zero => simp at h2
      | succ f2 =>
        simp only [pySplitF]
        by_cases hp : (s0 :: srest).isPrefixOf (c :: rest)
        · rw [if_pos hp, if_pos hp,
            ih (rest.drop srest.length) f2
              (by simp only [List.length_drop]; simp at h1; omega)
              (by simp only [List.length_drop]; simp at h2; omega)]
        · rw [if_neg hp, if_neg hp,
            ih rest f2 (by simp at h1; omega) (by simp at h2; omega)]

theorem pySplitF_not_contains (s0 : Char) (srest : List Char) :
    ∀ (fuel : Nat) (l : List Char), l.length ≤ fuel →
    pyContains (s0 :: srest) l = false →
    pySplitF s0 srest fuel l = [l] := by
  intro fuel
  induction fuel with
  | zero =>
    intro l h1 _
    have hl : l = [] := List.eq_nil_of_length_eq_zero (Nat.le_zero.mp h1)
    subst hl
    simp [pySplitF]
  | succ fuel ih =>
    intro l h1 hc
    cases l with
    | nil => simp [pySplitF]
    | cons c rest =>
      rw [pyContains] at hc
      rw [Bool.or_eq_false_iff] at hc
      simp only [pySplitF]
      rw [if_neg (by simp [hc.1])]
      rw [ih rest (by simp at h1; omega) hc.2]

theorem pySplitF_contains (s0 : Char) (srest : List Char) :
    ∀ (fuel : Nat) (l : List Char), l.length ≤ fuel →
    pyContains (s0 :: srest) l = true →
    pySplitF s0 srest fuel l =
      takeUntilSubs [s0 :: srest] l ::
        pySplit (s0 :: srest) (afterFirstSub (s0 :: srest) l) := by
  intro fuel
  induction fuel with
  | zero =>
    intro l h1 hc
    have hl : l = [] := List.eq_nil_of_length_eq_zero (Nat.le_zero.mp h1)
    subst hl
    simp [pyContains, List.isPrefixOf] at hc
  | succ fuel ih =>
    intro l h1 hc
    cases l with
    | nil => simp [pyContains, List.isPrefixOf] at hc
    | cons c rest =>
      by_cases hp : (s0 :: srest).isPrefixOf (c :: rest)
      · simp only [pySplitF, if_pos hp]
        rw [takeUntilSubs]
        rw [if_pos (by simp [hp])]
        rw [afterFirstSub]
        rw [if_pos hp]
        simp only [List.length_cons, List.drop_succ_cons]
        rw [pySplit]
        rw [pySplitF_irrel s0 srest fuel (rest.drop srest.length) (rest.drop srest.length).length
          (by simp only [List.length_drop]; simp at h1; omega) le_rfl]
      · have hp' : (s0 :: srest).isPrefixOf (c :: rest) = false :=
          Bool.eq_false_iff.mpr hp
        rw [pyContains, hp', Bool.false_or] at hc
        simp only [pySplitF]
        rw [if_neg hp]
        rw [ih rest (by simp at h1; omega) hc]
        rw [takeUntilSubs]
        rw [if_neg (by simp [hp'])]
        rw [afterFirstSub]
        rw [if_neg hp]

theorem takeUntil_not_contains (s0 : Char) (srest : List Char) :
    ∀ l : List Char, pyContains (s0 :: srest) l = false →
    takeUntilSubs [s0 :: srest] l = l := by
  intro l
  induction l with
  | nil => intro _; simp [takeUntilSubs]
  | cons c rest ih =>
    intro hc
    rw [pyContains] at hc
    rw [Bool.or_eq_false_iff] at hc
    rw [takeUntilSubs]
    rw [if_neg (by simp [hc.1])]
    rw [ih hc.2]

theorem pySplit_head (s0 : Char) (srest : List Char) (l : List Char) :
    (pySplit (s0 :: srest) l).getD 0 [] = takeUntilSubs [s0 :: srest] l := by
  by_cases hc : pyContains (s0 :: srest) l = true
  · rw [pySplit, pySplitF_contains s0 srest l.length l le_rfl hc]
    simp [List.getD]
  · have hc' : pyContains (s0 :: srest) l = false := by
      simpa using hc
    rw [pySplit, pySplitF_not_contains s0 srest l.length l le_rfl hc']
    rw [takeUntil_not_contains s0 srest l hc']
    simp [List.getD]

theorem pySplit_get1 (s0 : Char) (srest : List Char) (l : List Char)
    (hc : pyContains (s0 :: srest) l = true) :
    (pySplit (s0 :: srest) l).getD 1 [] =
      takeUntilSubs [s0 :: srest] (afterFirstSub (s0 :: srest) l) := by
  rw [pySplit, pySplitF_contains s0 srest l.length l le_rfl hc]
  rw [List.getD_cons_succ]
  exact pySplit_head s0 srest (afterFirstSub (s0 :: srest) l)

theorem takeUntil_comp (a : List Char) (d : Char) :
    ∀ x : List Char,
    takeUntilSubs [[d]] (takeUntilSubs [a] x) = takeUntilSubs [a, [d]] x := by
  intro x
  induction x with
  | nil => simp [takeUntilSubs]
  | cons c rest ih =>
    by_cases hpa : a.isPrefixOf (c :: rest)
    · have h1 : takeUntilSubs [a] (c :: rest) = [] := by
        rw [takeUntilSubs, if_pos (by simp [hpa])]
      have h3 : takeUntilSubs [a, [d]] (c :: rest) = [] := by
        rw [takeUntilSubs, if_pos (by simp [hpa])]
      rw [h1, h3]
      simp [takeUntilSubs]
    · have hpa' : a.isPrefixOf (c :: rest) = false := Bool.eq_false_iff.mpr hpa
      have h1 : takeUntilSubs [a] (c :: rest) = c :: takeUntilSubs [a] rest := by
        rw [takeUntilSubs, if_neg (by simp [hpa'])]
      by_cases hpd : d = c
      · subst hpd
        have h2 : takeUntilSubs [[d]] (d :: takeUntilSubs [a] rest) = [] := by
          rw [takeUntilSubs, if_pos (by simp [List.isPrefixOf])]
        have h3 : takeUntilSubs [a, [d]] (d :: rest) = [] := by
          rw [takeUntilSubs, if_pos (by simp [hpa', List.isPrefixOf])]
        rw [h1, h2, h3]
      · have h2 : takeUntilSubs [[d]] (c :: takeUntilSubs [a] rest)
            = c :: takeUntilSubs [[d]] (takeUntilSubs [a] rest) := by
          rw [takeUntilSubs, if_neg (by simp [List.isPrefixOf, hpd])]
        have h3 : takeUntilSubs [a, [d]] (c :: rest)
            = c :: takeUntilSubs [a, [d]] rest := by
          rw [takeUntilSubs, if_neg (by simp [List.isPrefixOf, hpa', hpd])]
        rw [h1, h2, h3, ih]

theorem extract_branch (s0 : Char) (srest : List Char) (d : Char) (l : List Char)
    (hc : pyContains (s0 :: srest) l = true) :
    (pySplit [d] ((pySplit (s0 :: srest) l).getD 1 [])).getD 0 [] =
    takeUntilSubs [s0 :: srest, [d]] (afterFirstSub (s0 :: srest) l) := by
  rw [pySplit_get1 s0 srest l hc]
  rw [pySplit_head d []]
  exact takeUntil_comp (s0 :: srest) d (afterFirstSub (s0 :: srest) l)

/- ===================== claim C7 ===================== -/

/-- C7 counterexample: the original claim says the query form returns "the
substring after the marker up to the next delimiter (`&`)", which on
`"watch?v=abv=cd"` would be `"abv=cd"` (there is no `&`); the code's
`split("v=")[1]` instead also cuts at the second occurrence of the marker
and returns `"ab"`. -/
theorem claim_C7_counterexample :
    extract_video_id "watch?v=abv=cd" = some "ab" ∧
    extract_claimed "watch?v=abv=cd" = some "abv=cd" ∧
    some "ab" ≠ some "abv=cd" :=
  ⟨by decide, by decide, by decide⟩

/-- C7 (amended): identifier extraction checks the three URL shapes in
order (query-parameter form, short-link path form, "shorts" path form) and,
for the first shape that matches, returns the substring after the first
occurrence of the marker up to the next occurrence of the delimiter (`&`
for the query form, `?` for the other two) or of the marker itself,
whichever comes first; for any string containing none of the three markers
it signals InvalidLink (returns None). -/
theorem claim_C7 (link : String) :
    extract_video_id link = extract_spec link ∧
    (noMarkers link = true → extract_video_id link = none) := by
  constructor
  · unfold extract_video_id extract_spec
    by_cases h1 : pyContains "v=".data link.data = true
    · rw [if_pos h1, if_pos h1]
      exact congrArg (fun t => some (String.mk t))
        (extract_branch 'v' ['='] '&' link.data h1)
    · rw [if_neg h1, if_neg h1]
      by_cases h2 : pyContains "youtu.be/".data link.data = true
      · rw [if_pos h2, if_pos h2]
        exact congrArg (fun t => some (String.mk t))
          (extract_branch 'y' ['o', 'u', 't', 'u', '.', 'b', 'e', '/'] '?' link.data h2)
      · rw [if_neg h2, if_neg h2]
        by_cases h3 : pyContains "shorts/".data link.data = true
        · rw [if_pos h3, if_pos h3]
          exact congrArg (fun t => some (String.mk t))
            (extract_branch 's' ['h', 'o', 'r', 't', 's', '/'] '?' link.data h3)
        · rw [if_neg h3, if_neg h3]
  · intro hm
    unfold noMarkers at hm
    rw [Bool.not_eq_true'] at hm
    rw [Bool.or_eq_false_iff] at hm
    have hm1 := hm.1
    rw [Bool.or_eq_false_iff] at hm1
    unfold extract_video_id
    rw [if_neg (by simp [hm1.1]), if_neg (by simp [hm1.2]), if_neg (by simp [hm.2])]

/-- C7 witness: the amended equivalence at the spec's end-to-end example
link, and the InvalidLink case at a marker-free string. -/
theorem claim_C7_witness :
    extract_video_id "https://www.youtube.com/watch?v=ABC123&t=5s" =
      extract_spec "https://www.youtube.com/watch?v=ABC123&t=5s" ∧
    noMarkers "hello" = true ∧
    extract_video_id "hello" = none :=
  ⟨(claim_C7 "https://www.youtube.com/watch?v=ABC123&t=5s").1, by decide,
   (claim_C7 "hello").2 (by decide)⟩

/- ===================== claims C1 and C6 ===================== -/

/-- C1: for every sequence of comment pages the transport yields,
`get_comments` (1) returns at most 20 comments; (2) if the pages are
exactly the fault-free chained sequence the transport yields (each page but
the last carries a next-page token) and fewer than 20 comments are
available across them, it returns exactly all of them, in page order, with
absent like counts defaulted to 0; (3) once the 20th comment is appended —
on the page following a chained, fault-free front holding fewer than 20
comments — it returns the first 20 comments in page order and has made no
request beyond that page (whatever pages would come after). -/
theorem claim_C1 :
    (∀ pages : List PageResp, (get_comments pages).length ≤ 20) ∧
    (∀ pages : List PageResp, chainedOk pages = true →
      (flattenPages pages).length < 20 →
      get_comments pages = flattenPages pages) ∧
    (∀ (front : List PageResp) (lastPg : PageOk) (rest : List PageResp),
      (∀ p ∈ front, pageOkTok p = true) →
      (flattenPages front).length < 20 →
      20 ≤ (flattenPages front).length + lastPg.items.length →
      get_comments (front ++ PageResp.ok lastPg :: rest) =
        (flattenPages front ++ lastPg.items.map convItem).take 20 ∧
      get_comments_requests (front ++ PageResp.ok lastPg :: rest) = front.length + 1) := by
  refine ⟨?_, ?_, ?_⟩
  · intro pages
    exact go_length pages [] (by simp [MAX_COMMENTS])
  · intro pages hch htot
    unfold get_comments
    rw [go_chained pages [] hch (by simpa [MAX_COMMENTS] using htot)]
    simp
  · intro front lastPg rest hok hlt hcap
    have h := go_cap front hok lastPg rest [] (by simp [MAX_COMMENTS])
      (by simpa [MAX_COMMENTS] using hlt) (by simpa [MAX_COMMENTS] using hcap)
    constructor
    · unfold get_comments
      rw [h]
      simp only [List.nil_append, MAX_COMMENTS]
      rw [List.map_take]
      rw [List.take_append_eq_append_take]
      rw [List.take_of_length_le (Nat.le_of_lt hlt)]
    · unfold get_comments_requests
      rw [h]

/-- C1 witness: a single chained page with one item is returned whole; a
single 25-item page is truncated to 20 with exactly one request made, even
though a faulting page follows. -/
theorem claim_C1_witness :
    (get_comments [PageResp.ok ⟨[⟨"a", some 3⟩], false⟩]).length ≤ 20 ∧
    get_comments [PageResp.ok ⟨[⟨"a", some 3⟩], false⟩] =
      flattenPages [PageResp.ok ⟨[⟨"a", some 3⟩], false⟩] ∧
    (get_comments ([] ++ PageResp.ok ⟨List.replicate 25 ⟨"c", none⟩, true⟩ :: [PageResp.fault]) =
        (flattenPages [] ++ (List.replicate 25 (⟨"c", none⟩ : RawComment)).map convItem).take 20 ∧
      get_comments_requests
        ([] ++ PageResp.ok ⟨List.replicate 25 ⟨"c", none⟩, true⟩ :: [PageResp.fault]) =
        List.length ([] : List PageResp) + 1) :=
  ⟨claim_C1.1 [PageResp.ok ⟨[⟨"a", some 3⟩], false⟩],
   claim_C1.2.1 [PageResp.ok ⟨[⟨"a", some 3⟩], false⟩] (by decide) (by decide),
   claim_C1.2.2 [] ⟨List.replicate 25 ⟨"c", none⟩, true⟩ [PageResp.fault]
     (by intro p hp; simp at hp) (by decide) (by decide)⟩

/-- C6 counterexample: the claim says a fault on page 2 leaves the comment
gathered from page 1 in the result, but on any `HttpError` the handler
`except HttpError: return []` returns the empty list, discarding it. -/
theorem claim_C6_counterexample :
    get_comments [PageResp.ok ⟨[⟨"a", some 3⟩], true⟩, PageResp.fault] = [] ∧
    ([] : List (String × Nat)) ≠ [("a", 3)] :=
  ⟨by decide, by decide⟩

/-- C6 (amended): a transport fault during collection is swallowed (never
propagated to the caller), but collection degrades to the EMPTY sequence,
not to the comments gathered so far: whenever the faulting request comes
before the 20-comment cap has been reached, `get_comments` returns `[]`,
discarding the comments contributed by earlier pages, after making exactly
the requests up to and including the faulting one. -/
theorem claim_C6 (front : List PageResp) (rest : List PageResp)
    (hok : ∀ p ∈ front, pageOkTok p = true)
    (hlt : (flattenPages front).length < 20) :
    get_comments (front ++ PageResp.fault :: rest) = [] ∧
    get_comments_requests (front ++ PageResp.fault :: rest) = front.length + 1 := by
  have h := go_fault front hok rest [] (by simp [MAX_COMMENTS])
    (by simpa [MAX_COMMENTS] using hlt)
  exact ⟨by unfold get_comments; rw [h], by unfold get_comments_requests; rw [h]⟩

/-- C6 witness: one page contributes a comment, the second request faults,
and the result is empty after exactly two requests. -/
theorem claim_C6_witness :
    get_comments ([PageResp.ok ⟨[⟨"a", some 3⟩], true⟩] ++ PageResp.fault :: []) = [] ∧
    get_comments_requests ([PageResp.ok ⟨[⟨"a", some 3⟩], true⟩] ++ PageResp.fault :: []) =
      List.length [PageResp.ok (⟨[⟨"a", some 3⟩], true⟩ : PageOk)] + 1 :=
  claim_C6 [PageResp.ok ⟨[⟨"a", some 3⟩], true⟩] [] (by decide) (by decide)

/- ===================== claim C2 ===================== -/

/-- C2: `analyze_sentiment` first strips HTML-like tags (non-greedy tag
pattern); if the stripped text is empty or whitespace-only it returns
Neutral without invoking inference; otherwise it invokes inference on the
first 256 characters of the stripped text and maps the returned label by
priority — a label containing "NEGATIVE" (case-insensitively) yields
Negative, else one containing "NEUTRAL" yields Neutral, else Positive.
The second component of the result records the text inference was invoked
on (`none` = not invoked). -/
theorem claim_C2 (infer : String → String) (comment : String) :
    (pyStrip (stripTags comment) = "" →
      analyze_sentiment infer comment = ("Neutral", none)) ∧
    (pyStrip (stripTags comment) ≠ "" →
      analyze_sentiment infer comment =
        (sentimentOfLabel (infer (pySlice256 (stripTags comment))),
         some (pySlice256 (stripTags comment)))) := by
  have hneg : pyUpper "NEGATIVE" = "NEGATIVE" := by decide
  have hneu : pyUpper "NEUTRAL" = "NEUTRAL" := by decide
  constructor
  · intro h
    unfold analyze_sentiment
    rw [if_pos h]
  · intro h
    unfold analyze_sentiment sentimentOfLabel containsInsensitive
    rw [if_neg h, hneg, hneu]
    by_cases h1 : pyContains "NEGATIVE".data (pyUpper (infer (pySlice256 (stripTags comment)))).data = true
    · rw [if_pos h1, if_pos h1]
    · rw [if_neg h1, if_neg h1]
      by_cases h2 : pyContains "NEUTRAL".data (pyUpper (infer (pySlice256 (stripTags comment)))).data = true
      · rw [if_pos h2, if_pos h2]
      · rw [if_neg h2, if_neg h2]

/-- C2 witness: a tag-only/whitespace-only input returns Neutral with
inference not invoked; a plain input is classified from the inference
label, here a lowercase "negative". -/
theorem claim_C2_witness :
    analyze_sentiment (fun _ => "negative") "<b></b>   " = ("Neutral", none) ∧
    analyze_sentiment (fun _ => "negative") "good stuff" =
      (sentimentOfLabel ((fun (_ : String) => "negative") (pySlice256 (stripTags "good stuff"))),
       some (pySlice256 (stripTags "good stuff"))) :=
  ⟨(claim_C2 (fun _ => "negative") "<b></b>   ").1 (by decide),
   (claim_C2 (fun _ => "negative") "good stuff").2 (by decide)⟩

/- ===================== lemmas: the aggregation loop ===================== -/

theorem agg_pos_count (classify : String → String) :
    ∀ (data : List (String × Nat)) (st : Agg),
    (data.foldl (aggStep classify) st).positive =
      st.positive + (data.filter (fun cd => classify cd.1 == "Positive")).length := by
  intro data
  induction data with
  | nil => intro st; simp
  | cons cd rest ih =>
    intro st
    rw [List.foldl_cons, ih]
    by_cases h1 : (classify cd.1 == "Positive") = true
    · simp [aggStep, h1, List.filter_cons]
      omega
    · by_cases h2 : (classify cd.1 == "Negative") = true
      · simp [aggStep, h1, h2, List.filter_cons]
      · simp [aggStep, h1, h2, List.filter_cons]

theorem agg_neg_count (classify : String → String) :
    ∀ (data : List (String × Nat)) (st : Agg),
    (data.foldl (aggStep classify) st).negative =
      st.negative + (data.filter
        (fun cd => !(classify cd.1 == "Positive") && (classify cd.1 == "Negative"))).length := by
  intro data
  induction data with
  | nil => intro st; simp
  | cons cd rest ih =>
    intro st
    rw [List.foldl_cons, ih]
    by_cases h1 : (classify cd.1 == "Positive") = true
    · simp [aggStep, h1, List.filter_cons]
    · by_cases h2 : (classify cd.1 == "Negative") = true
      · simp [aggStep, h1, h2, List.filter_cons]
        omega
      · simp [aggStep, h1, h2, List.filter_cons]

theorem agg_neu_count (classify : String → String) :
    ∀ (data : List (String × Nat)) (st : Agg),
    (data.foldl (aggStep classify) st).neutral =
      st.neutral + (data.filter
        (fun cd => !(classify cd.1 == "Positive") && !(classify cd.1 == "Negative"))).length := by
  intro data
  induction data with
  | nil => intro st; simp
  | cons cd rest ih =>
    intro st
    rw [List.foldl_cons, ih]
    by_cases h1 : (classify cd.1 == "Positive") = true
    · simp [aggStep, h1, List.filter_cons]
    · by_cases h2 : (classify cd.1 == "Negative") = true
      · simp [aggStep, h1, h2, List.filter_cons]
      · simp [aggStep, h1, h2, List.filter_cons]
        omega

theorem agg_pos_bucket (classify : String → String) :
    ∀ (data : List (String × Nat)) (st : Agg),
    (data.foldl (aggStep classify) st).positive_comments =
      st.positive_comments ++
        (data.filter (fun cd => classify cd.1 == "Positive")).map Prod.fst := by
  intro data
  induction data with
  | nil => intro st; simp
  | cons cd rest ih =>
    intro st
    rw [List.foldl_cons, ih]
    by_cases h1 : (classify cd.1 == "Positive") = true
    · simp [aggStep, h1, List.filter_cons]
    · by_cases h2 : (classify cd.1 == "Negative") = true
      · simp [aggStep, h1, h2, List.filter_cons]
      · simp [aggStep, h1, h2, List.filter_cons]

theorem agg_neg_bucket (classify : String → String) :
    ∀ (data : List (String × Nat)) (st : Agg),
    (data.foldl (aggStep classify) st).negative_comments =
      st.negative_comments ++
        (data.filter
          (fun cd => !(classify cd.1 == "Positive") && (classify cd.1 == "Negative"))).map
          Prod.fst := by
  intro data
  induction data with
  | nil => intro st; simp
  | cons cd rest ih =>
    intro st
    rw [List.foldl_cons, ih]
    by_cases h1 : (classify cd.1 == "Positive") = true
    · simp [aggStep, h1, List.filter_cons]
    · by_cases h2 : (classify cd.1 == "Negative") = true
      · simp [aggStep, h1, h2, List.filter_cons]
      · simp [aggStep, h1, h2, List.filter_cons]

theorem agg_neu_bucket (classify : String → String) :
    ∀ (data : List (String × Nat)) (st : Agg),
    (data.foldl (aggStep classify) st).neutral_comments =
      st.neutral_comments ++
        (data.filter
          (fun cd => !(classify cd.1 == "Positive") && !(classify cd.1 == "Negative"))).map
          Prod.fst := by
  intro data
  induction data with
  | nil => intro st; simp
  | cons cd rest ih =>
    intro st
    rw [List.foldl_cons, ih]
    by_cases h1 : (classify cd.1 == "Positive") = true
    · simp [aggStep, h1, List.filter_cons]
    · by_cases h2 : (classify cd.1 == "Negative") = true
      · simp [aggStep, h1, h2, List.filter_cons]
      · simp [aggStep, h1, h2, List.filter_cons]

theorem agg_sum (classify : String → String) :
    ∀ (data : List (String × Nat)) (st : Agg),
    (data.foldl (aggStep classify) st).positive +
      (data.foldl (aggStep classify) st).negative +
      (data.foldl (aggStep classify) st).neutral =
    st.positive + st.negative + st.neutral + data.length := by
  intro data
  induction data with
  | nil => intro st; simp
  | cons cd rest ih =>
    intro st
    rw [List.foldl_cons, ih]
    by_cases h1 : (classify cd.1 == "Positive") = true
    · simp [aggStep, h1]
      omega
    · by_cases h2 : (classify cd.1 == "Negative") = true
      · simp [aggStep, h1, h2]
        omega
      · simp [aggStep, h1, h2]
        omega

/- ===================== claim C3 ===================== -/

/-- C3: after the aggregation loop, the three counters sum to the number of
comments processed, and every comment lands in exactly one of the three
label buckets, in encounter order within its bucket: the buckets are
precisely the filters of the input by the three mutually exclusive,
exhaustive branch conditions (`== "Positive"`, else `== "Negative"`, else
neutral), and each counter equals its bucket's length.  Quantified over an
arbitrary classification function, i.e. any partition of labels. -/
theorem claim_C3 (classify : String → String) (data : List (String × Nat)) :
    (aggregate classify data).positive + (aggregate classify data).negative +
        (aggregate classify data).neutral = data.length ∧
    (aggregate classify data).positive_comments =
      (data.filter (fun cd => classify cd.1 == "Positive")).map Prod.fst ∧
    (aggregate classify data).negative_comments =
      (data.filter
        (fun cd => !(classify cd.1 == "Positive") && (classify cd.1 == "Negative"))).map
        Prod.fst ∧
    (aggregate classify data).neutral_comments =
      (data.filter
        (fun cd => !(classify cd.1 == "Positive") && !(classify cd.1 == "Negative"))).map
        Prod.fst ∧
    (aggregate classify data).positive = (aggregate classify data).positive_comments.length ∧
    (aggregate classify data).negative = (aggregate classify data).negative_comments.length ∧
    (aggregate classify data).neutral = (aggregate classify data).neutral_comments.length := by
  unfold aggregate
  refine ⟨?_, agg_pos_bucket classify data initAgg,
    agg_neg_bucket classify data initAgg, agg_neu_bucket classify data initAgg, ?_, ?_, ?_⟩
  · rw [agg_sum classify data initAgg]
    simp [initAgg]
  · rw [agg_pos_count classify data initAgg, agg_pos_bucket classify data initAgg]
    simp [initAgg]
  · rw [agg_neg_count classify data initAgg, agg_neg_bucket classify data initAgg]
    simp [initAgg]
  · rw [agg_neu_count classify data initAgg, agg_neu_bucket classify data initAgg]
    simp [initAgg]

/- ===================== lemmas: stable descending sort ===================== -/

theorem insertDesc_perm {α : Type} (key : α → Nat) (c : α) :
    ∀ l : List α, (insertDesc key c l).Perm (c :: l) := by
  intro l
  induction l with
  | nil => simp [insertDesc]
  | cons d ds ih =>
    rw [insertDesc]
    by_cases h : key d ≤ key c
    · rw [if_pos h]
    · rw [if_neg h]
      exact (List.Perm.cons d ih).trans (List.Perm.swap c d ds)

theorem pySortDescBy_perm {α : Type} (key : α → Nat) :
    ∀ l : List α, (pySortDescBy key l).Perm l := by
  intro l
  induction l with
  | nil => simp [pySortDescBy]
  | cons c rest ih =>
    rw [pySortDescBy]
    exact (insertDesc_perm key c _).trans (List.Perm.cons c ih)

theorem mem_insertDesc {α : Type} (key : α → Nat) (c a : α) (l : List α) :
    a ∈ insertDesc key c l ↔ a = c ∨ a ∈ l := by
  have h := (insertDesc_perm key c l).mem_iff (a := a)
  simpa using h

theorem insertDesc_pairwise {α : Type} (key : α → Nat) (R : α → α → Prop)
    (hle : ∀ a b, R a b → key b ≤ key a) (c : α) :
    ∀ l : List α, l.Pairwise R →
    (∀ d ∈ l, (key d ≤ key c → R c d) ∧ (key c < key d → R d c)) →
    (insertDesc key c l).Pairwise R := by
  intro l
  induction l with
  | nil => intro _ _; simp [insertDesc]
  | cons d ds ih =>
    intro hp hc
    rw [List.pairwise_cons] at hp
    rw [insertDesc]
    by_cases h : key d ≤ key c
    · rw [if_pos h]
      refine List.Pairwise.cons ?_ (List.Pairwise.cons hp.1 hp.2)
      intro e he
      rw [List.mem_cons] at he
      rcases he with rfl | he
      · exact (hc e (by simp)).1 h
      · have hde : R d e := hp.1 e he
        have hek : key e ≤ key c := Nat.le_trans (hle d e hde) h
        exact (hc e (by simp [he])).1 hek
    · rw [if_neg h]
      refine List.Pairwise.cons ?_ (ih hp.2 (fun e he => hc e (by simp [he])))
      intro e he
      rw [mem_insertDesc] at he
      rcases he with he | he
      · subst he
        exact (hc d (by simp)).2 (Nat.lt_of_not_le h)
      · exact hp.1 e he

theorem pySortDescBy_sorted {α : Type} (key : α → Nat) :
    ∀ l : List α, (pySortDescBy key l).Pairwise (fun a b => key b ≤ key a) := by
  intro l
  induction l with
  | nil => simp [pySortDescBy]
  | cons c rest ih =>
    rw [pySortDescBy]
    refine insertDesc_pairwise key _ (fun a b h => h) c _ ih ?_
    intro d _
    exact ⟨fun h => h, fun h => Nat.le_of_lt h⟩

theorem pySortDescBy_stable {α : Type} (key : α → Nat) :
    ∀ l : List (Nat × α), l.Pairwise (fun a b => a.1 < b.1) →
    (pySortDescBy (fun p => key p.2) l).Pairwise
      (fun a b => key b.2 < key a.2 ∨ (key a.2 = key b.2 ∧ a.1 < b.1)) := by
  intro l
  induction l with
  | nil => intro _; simp [pySortDescBy]
  | cons c rest ih =>
    intro hp
    rw [List.pairwise_cons] at hp
    rw [pySortDescBy]
    refine insertDesc_pairwise (fun p => key p.2) _ ?_ c _ (ih hp.2) ?_
    · intro a b hab
      rcases hab with h | h
      · exact Nat.le_of_lt h
      · exact Nat.le_of_eq h.1.symm
    · intro d hd
      have hd' : d ∈ rest := ((pySortDescBy_perm (fun p => key p.2) rest).mem_iff).mp hd
      have hidx : c.1 < d.1 := hp.1 d hd'
      constructor
      · intro hkey
        rcases Nat.lt_or_ge (key d.2) (key c.2) with h | h
        · exact Or.inl h
        · exact Or.inr ⟨Nat.le_antisymm h hkey, hidx⟩
      · intro hlt
        exact Or.inl hlt

theorem insertDesc_map {α β : Type} (key : α → Nat) (f : β → α) (c : β) :
    ∀ l : List β,
    (insertDesc (fun b => key (f b)) c l).map f = insertDesc key (f c) (l.map f) := by
  intro l
  induction l with
  | nil => simp [insertDesc]
  | cons d ds ih =>
    rw [insertDesc]
    by_cases h : key (f d) ≤ key (f c)
    · rw [if_pos h]
      simp [insertDesc, h]
    · rw [if_neg h]
      simp only [List.map_cons]
      rw [ih]
      simp [insertDesc, h]

theorem pySortDescBy_map {α β : Type} (key : α → Nat) (f : β → α) :
    ∀ l : List β,
    (pySortDescBy (fun b => key (f b)) l).map f = pySortDescBy key (l.map f) := by
  intro l
  induction l with
  | nil => simp [pySortDescBy]
  | cons c rest ih =>
    rw [pySortDescBy]
    rw [insertDesc_map key f c]
    rw [ih]
    simp [pySortDescBy]

theorem withIdxFrom_map_snd {α : Type} :
    ∀ (l : List α) (i : Nat), (withIdxFrom i l).map Prod.snd = l := by
  intro l
  induction l with
  | nil => intro i; simp [withIdxFrom]
  | cons a l ih => intro i; simp [withIdxFrom, ih]

theorem withIdxFrom_fst_lt {α : Type} :
    ∀ (l : List α) (i j : Nat), j < i → ∀ p ∈ withIdxFrom i l, j < p.1 := by
  intro l
  induction l with
  | nil => intro i j _ p hp; simp [withIdxFrom] at hp
  | cons a l ih =>
    intro i j hj p hp
    rw [withIdxFrom, List.mem_cons] at hp
    rcases hp with rfl | hp
    · exact hj
    · exact ih (i + 1) j (Nat.lt_succ_of_lt hj) p hp

theorem withIdxFrom_pairwise {α : Type} :
    ∀ (l : List α) (i : Nat), (withIdxFrom i l).Pairwise (fun a b => a.1 < b.1) := by
  intro l
  induction l with
  | nil => intro i; simp [withIdxFrom]
  | cons a l ih =>
    intro i
    rw [withIdxFrom]
    refine List.Pairwise.cons ?_ (ih (i + 1))
    intro p hp
    exact withIdxFrom_fst_lt l (i + 1) i (Nat.lt_succ_self i) p hp

/- ===================== claim C4 ===================== -/

/-- C4: the top-liked selection takes the first 5 of the stable descending
sort (by like count) of the original, pre-classification comment sequence:
the sorted sequence is a permutation of the input, pairwise descending in
like count, and — tagging elements with their original positions — pairwise
either strictly greater in like count or equal with original order
preserved (stability).  The sentiment labels have no influence: the
rendered top-liked list is identical for any two inference oracles. -/
theorem claim_C4 (data : List (String × Nat)) :
    top_liked_comments data = (pySortDescBy (fun cd => cd.2) data).take 5 ∧
    (pySortDescBy (fun cd => cd.2) data).Perm data ∧
    (pySortDescBy (fun cd => cd.2) data).Pairwise (fun a b => b.2 ≤ a.2) ∧
    (pySortDescBy (fun p => p.2.2) (withIdxFrom 0 data)).map Prod.snd =
      pySortDescBy (fun cd => cd.2) data ∧
    (pySortDescBy (fun p => p.2.2) (withIdxFrom 0 data)).Pairwise
      (fun a b => b.2.2 < a.2.2 ∨ (a.2.2 = b.2.2 ∧ a.1 < b.1)) ∧
    (∀ (fl : Option String) (st : Option VideoStats) (pg : List PageResp)
        (inf1 inf2 : String → String) (s1 s2 : Option AnalysisReport),
      outcomeTop (home_post ⟨fl, st, pg, inf1⟩ s1).outcome =
        outcomeTop (home_post ⟨fl, st, pg, inf2⟩ s2).outcome) := by
  refine ⟨rfl, pySortDescBy_perm (fun cd => cd.2) data,
    pySortDescBy_sorted (fun cd => cd.2) data, ?_,
    pySortDescBy_stable (fun cd => cd.2) (withIdxFrom 0 data) (withIdxFrom_pairwise data 0), ?_⟩
  · have h := pySortDescBy_map (fun cd => cd.2) Prod.snd (withIdxFrom 0 data)
    rw [withIdxFrom_map_snd] at h
    exact h
  · intro fl st pg inf1 inf2 s1 s2
    cases fl with
    | none => rfl
    | some link =>
      simp only [home_post]
      by_cases hf : pyFalsyId (extract_video_id link) = true
      · simp [hf, outcomeTop]
      · simp only [hf, Bool.false_eq_true, if_false]
        cases st with
        | none => simp [outcomeTop]
        | some vs =>
          by_cases hempty : (get_comments pg).isEmpty
          · simp [hf, hempty, outcomeTop]
          · simp [hf, hempty, outcomeTop]

/- ===================== claim C5 ===================== -/

/-- C5: reading the report store before any write signals
NoReportAvailable; each write unconditionally replaces the whole slot, so
after write(A1) followed by write(A2) a read returns exactly A2, whatever
the slot held before. -/
theorem claim_C5 :
    download_report none = ReportResult.noReport ∧
    (∀ (a1 a2 : AnalysisReport) (s : Option AnalysisReport),
      download_report (writeReport a2 (writeReport a1 s)) = ReportResult.report a2) :=
  ⟨rfl, fun _ _ _ => rfl⟩

/- ===================== claim C8 ===================== -/

/-- C8 counterexample: with the form's link field absent,
`request.form.get("link")` yields None and `"v=" in None` raises a
TypeError — the request crashes instead of rendering the
"Invalid YouTube Link!" message the claim requires. -/
theorem claim_C8_counterexample :
    (home_post ⟨none, none, [], fun _ => ""⟩ none).outcome = HomeOutcome.crashed ∧
    (home_post ⟨none, none, [], fun _ => ""⟩ none).outcome ≠
      HomeOutcome.rendered { initRender with error_message := "Invalid YouTube Link!" } :=
  ⟨rfl, by decide⟩

/-- C8 (amended): for an EMPTY link string, extraction signals InvalidLink
(the "Invalid YouTube Link!" render) and the pipeline halts before any
network call (no metadata lookup, no comment-page request) with the store
untouched; for an ABSENT (None) link the pipeline also halts before any
network call with the store untouched, but by raising a TypeError rather
than signalling InvalidLink. -/
theorem claim_C8 :
    (∀ (ctx : Ctx) (store : Option AnalysisReport), ctx.form_link = some "" →
      (home_post ctx store).outcome =
        HomeOutcome.rendered { initRender with error_message := "Invalid YouTube Link!" } ∧
      (home_post ctx store).metadata_called = false ∧
      (home_post ctx store).comment_requests = 0 ∧
      (home_post ctx store).store = store) ∧
    (∀ (ctx : Ctx) (store : Option AnalysisReport), ctx.form_link = none →
      (home_post ctx store).outcome = HomeOutcome.crashed ∧
      (home_post ctx store).metadata_called = false ∧
      (home_post ctx store).comment_requests = 0 ∧
      (home_post ctx store).store = store) := by
  constructor
  · intro ctx store h
    have hx : extract_video_id "" = none := by decide
    simp [home_post, h, hx, pyFalsyId]
  · intro ctx store h
    simp [home_post, h]

/-- C8 witness: a concrete empty-link request and a concrete absent-link
request against a populated store. -/
theorem claim_C8_witness :
    ((home_post ⟨some "", some ⟨"t", 1, 2, 3⟩, [], fun _ => ""⟩
        (some ⟨⟨"t", 1, 2, 3⟩, 1, 2, 3, "img"⟩)).outcome =
      HomeOutcome.rendered { initRender with error_message := "Invalid YouTube Link!" } ∧
     (home_post ⟨some "", some ⟨"t", 1, 2, 3⟩, [], fun _ => ""⟩
        (some ⟨⟨"t", 1, 2, 3⟩, 1, 2, 3, "img"⟩)).metadata_called = false ∧
     (home_post ⟨some "", some ⟨"t", 1, 2, 3⟩, [], fun _ => ""⟩
        (some ⟨⟨"t", 1, 2, 3⟩, 1, 2, 3, "img"⟩)).comment_requests = 0 ∧
     (home_post ⟨some "", some ⟨"t", 1, 2, 3⟩, [], fun _ => ""⟩
        (some ⟨⟨"t", 1, 2, 3⟩, 1, 2, 3, "img"⟩)).store =
       some ⟨⟨"t", 1, 2, 3⟩, 1, 2, 3, "img"⟩) ∧
    ((home_post ⟨none, some ⟨"t", 1, 2, 3⟩, [], fun _ => ""⟩
        (some ⟨⟨"t", 1, 2, 3⟩, 1, 2, 3, "img"⟩)).outcome = HomeOutcome.crashed ∧
     (home_post ⟨none, some ⟨"t", 1, 2, 3⟩, [], fun _ => ""⟩
        (some ⟨⟨"t", 1, 2, 3⟩, 1, 2, 3, "img"⟩)).metadata_called = false ∧
     (home_post ⟨none, some ⟨"t", 1, 2, 3⟩, [], fun _ => ""⟩
        (some ⟨⟨"t", 1, 2, 3⟩, 1, 2, 3, "img"⟩)).comment_requests = 0 ∧
     (home_post ⟨none, some ⟨"t", 1, 2, 3⟩, [], fun _ => ""⟩
        (some ⟨⟨"t", 1, 2, 3⟩, 1, 2, 3, "img"⟩)).store =
       some ⟨⟨"t", 1, 2, 3⟩, 1, 2, 3, "img"⟩) :=
  ⟨claim_C8.1 ⟨some "", some ⟨"t", 1, 2, 3⟩, [], fun _ => ""⟩
      (some ⟨⟨"t", 1, 2, 3⟩, 1, 2, 3, "img"⟩) rfl,
   claim_C8.2 ⟨none, some ⟨"t", 1, 2, 3⟩, [], fun _ => ""⟩
      (some ⟨⟨"t", 1, 2, 3⟩, 1, 2, 3, "img"⟩) rfl⟩

/- ===================== claim C9 ===================== -/

/-- C9: if the pipeline halts before completion — the link is invalid
(the `if not video_id:` guard fires, i.e. extraction yields None or the
empty string), or the metadata lookup returns nothing or faults (both of
which `get_video_stats` maps to None) — the report store slot is left
exactly as it was; in particular it never receives a partially-built
analysis. -/
theorem claim_C9 (ctx : Ctx) (store : Option AnalysisReport) (link : String)
    (hl : ctx.form_link = some link)
    (h : pyFalsyId (extract_video_id link) = true ∨ ctx.stats = none) :
    (home_post ctx store).store = store := by
  rcases h with h | h
  · simp [home_post, hl, h]
  · by_cases hf : pyFalsyId (extract_video_id link) = true
    · simp [home_post, hl, hf]
    · simp [home_post, hl, hf, h]

/-- C9 witness: an unparseable link, a link whose extracted identifier is
the empty string (`"v="`), and a parseable link whose metadata lookup
fails, all leave a populated store unchanged. -/
theorem claim_C9_witness :
    (home_post ⟨some "nolink", some ⟨"t", 1, 2, 3⟩, [], fun _ => ""⟩
      (some ⟨⟨"t", 1, 2, 3⟩, 1, 2, 3, "img"⟩)).store =
      some ⟨⟨"t", 1, 2, 3⟩, 1, 2, 3, "img"⟩ ∧
    (home_post ⟨some "v=", some ⟨"t", 1, 2, 3⟩, [], fun _ => ""⟩
      (some ⟨⟨"t", 1, 2, 3⟩, 1, 2, 3, "img"⟩)).store =
      some ⟨⟨"t", 1, 2, 3⟩, 1, 2, 3, "img"⟩ ∧
    (home_post ⟨some "v=abc", none, [], fun _ => ""⟩
      (some ⟨⟨"t", 1, 2, 3⟩, 1, 2, 3, "img"⟩)).store =
      some ⟨⟨"t", 1, 2, 3⟩, 1, 2, 3, "img"⟩ :=
  ⟨claim_C9 ⟨some "nolink", some ⟨"t", 1, 2, 3⟩, [], fun _ => ""⟩
      (some ⟨⟨"t", 1, 2, 3⟩, 1, 2, 3, "img"⟩) "nolink" rfl (Or.inl (by decide)),
   claim_C9 ⟨some "v=", some ⟨"t", 1, 2, 3⟩, [], fun _ => ""⟩
      (some ⟨⟨"t", 1, 2, 3⟩, 1, 2, 3, "img"⟩) "v=" rfl (Or.inl (by decide)),
   claim_C9 ⟨some "v=abc", none, [], fun _ => ""⟩
      (some ⟨⟨"t", 1, 2, 3⟩, 1, 2, 3, "img"⟩) "v=abc" rfl (Or.inr rfl)⟩

/- ===================== claim C10 ===================== -/

/-- C10: when the link passes the `if not video_id:` guard (extraction
yields a non-empty identifier) but comment collection returns an empty
sequence (for example after a swallowed transport fault), the request
completes with zero counts, writes nothing to the report store, and never
invokes the word-cloud renderer; a later report read still returns
whatever was stored before. -/
theorem claim_C10 (ctx : Ctx) (store : Option AnalysisReport) (link : String)
    (vs : VideoStats) (hl : ctx.form_link = some link)
    (hv : pyFalsyId (extract_video_id link) = false) (hs : ctx.stats = some vs)
    (hc : get_comments ctx.pages = []) :
    (home_post ctx store).store = store ∧
    (home_post ctx store).wordcloud_input = none ∧
    (home_post ctx store).outcome =
      HomeOutcome.rendered { initRender with video_stats := some vs } ∧
    download_report (home_post ctx store).store = download_report store := by
  have hres : home_post ctx store =
      { store := store,
        outcome := HomeOutcome.rendered { initRender with video_stats := some vs },
        metadata_called := true, comment_requests := get_comments_requests ctx.pages,
        wordcloud_input := none } := by
    simp [home_post, hl, hv, hs, hc]
  rw [hres]
  exact ⟨rfl, rfl, rfl, rfl⟩

/-- C10 witness: a valid link whose single comment-page request faults (so
collection yields the empty sequence) leaves the populated store and its
later read unchanged, with the renderer not invoked. -/
theorem claim_C10_witness :
    (home_post ⟨some "v=abc", some ⟨"t", 1, 2, 3⟩, [PageResp.fault], fun _ => ""⟩
      (some ⟨⟨"t", 1, 2, 3⟩, 1, 2, 3, "img"⟩)).store =
      some ⟨⟨"t", 1, 2, 3⟩, 1, 2, 3, "img"⟩ ∧
    (home_post ⟨some "v=abc", some ⟨"t", 1, 2, 3⟩, [PageResp.fault], fun _ => ""⟩
      (some ⟨⟨"t", 1, 2, 3⟩, 1, 2, 3, "img"⟩)).wordcloud_input = none ∧
    (home_post ⟨some "v=abc", some ⟨"t", 1, 2, 3⟩, [PageResp.fault], fun _ => ""⟩
      (some ⟨⟨"t", 1, 2, 3⟩, 1, 2, 3, "img"⟩)).outcome =
      HomeOutcome.rendered { initRender with video_stats := some ⟨"t", 1, 2, 3⟩ } ∧
    download_report (home_post ⟨some "v=abc", some ⟨"t", 1, 2, 3⟩, [PageResp.fault], fun _ => ""⟩
      (some ⟨⟨"t", 1, 2, 3⟩, 1, 2, 3, "img"⟩)).store =
      download_report (some ⟨⟨"t", 1, 2, 3⟩, 1, 2, 3, "img"⟩) :=
  claim_C10 ⟨some "v=abc", some ⟨"t", 1, 2, 3⟩, [PageResp.fault], fun _ => ""⟩
    (some ⟨⟨"t", 1, 2, 3⟩, 1, 2, 3, "img"⟩) "v=abc" ⟨"t", 1, 2, 3⟩
    rfl (by decide) rfl (by decide)
